import Mathlib

/-!
Shallow embedding of `main.go` of the check-secrets repository.

The program scans a cluster: it lists namespaces, lists Istio gateway
resources per namespace, extracts the TLS secrets referenced by each
gateway's servers, and prints each certificate's expiration date obtained
from an external `openssl x509 -noout -enddate` invocation.

External collaborators (the Kubernetes clients and the openssl process) are
modelled as oracles bundled in a `Cluster` structure; the semi-structured
gateway object (`unstructured.Unstructured`) is modelled by the inductive
`UValue`.  Printed output is modelled as a list of structured `Event`s
together with `renderEvent`, which produces the exact text the Go
`fmt.Printf` calls emit (without the trailing newline).
-/

set_option autoImplicit false

/-- Semi-structured value, modelling Go's `interface{}` trees as used by
`unstructured.Unstructured`: strings, string-keyed maps, slices, and a
catch-all `other` for values of any type the program never reads
(numbers, booleans, nil, ...). -/
inductive UValue where
  | str (s : String)
  | map (m : List (String × UValue))
  | list (l : List UValue)
  | other

/-- Lookup of a key in a string-keyed map (Go map access `m[field]`).
Keys of a Go map are unique, so first-match lookup is faithful. -/
def lookupKey : List (String × UValue) → String → Option UValue
  | [], _ => none
  | (k, v) :: rest, key => if k = key then some v else lookupKey rest key

/-- Field-path walk of `unstructured.NestedFieldNoCopy`: descend through
string-keyed maps.  `none` merges the Go pair `found = false` (missing key)
with `err ≠ nil` (an intermediate value that is not a map); every call site
in `main.go` tests `!found || err != nil`, so the merge is faithful. -/
def nestedField : UValue → List String → Option UValue
  | v, [] => some v
  | UValue.map m, f :: fs =>
    match lookupKey m f with
    | some v => nestedField v fs
    | none => none
  | _, _ :: _ => none

/-- `unstructured.NestedSlice`: the nested field must be a slice. -/
def nestedSlice (v : UValue) (fs : List String) : Option (List UValue) :=
  match nestedField v fs with
  | some (UValue.list l) => some l
  | _ => none

/-- `unstructured.NestedMap`: the nested field must be a map. -/
def nestedMap (v : UValue) (fs : List String) : Option (List (String × UValue)) :=
  match nestedField v fs with
  | some (UValue.map m) => some m
  | _ => none

/-- `unstructured.NestedString`: the nested field must be a string. -/
def nestedString (v : UValue) (fs : List String) : Option String :=
  match nestedField v fs with
  | some (UValue.str s) => some s
  | _ => none

/-- A `corev1.Secret`: its name and its `Data` map of named byte blobs
(bytes as `Nat` values below 256). -/
structure Secret where
  name : String
  data : List (String × List Nat)
deriving DecidableEq

/-- Lookup in a secret's `Data` map (`secret.Data["tls.crt"]`). -/
def lookupData : List (String × List Nat) → String → Option (List Nat)
  | [], _ => none
  | (k, v) :: rest, key => if k = key then some v else lookupData rest key

/-- A gateway resource: its metadata name and namespace, and its whole
unstructured object (`gw.Object`), of which the program reads only
`spec.servers`. -/
structure Gateway where
  name : String
  ns : String
  obj : UValue

/-- The external collaborators of the program: the namespace listing, the
per-namespace gateway listing, the secret getter, and the openssl
invocation (raw certificate bytes in, combined textual output out).
Errors are the collaborators' error texts. -/
structure Cluster where
  namespaces : Except String (List String)
  gateways : String → Except String (List Gateway)
  getSecret : String → String → Except String Secret
  openssl : List Nat → Except String String

/-- Bytes of an ASCII string literal. -/
def asciiBytes (s : String) : List Nat :=
  s.data.map Char.toNat

/-- The PEM header marker removed first: `"-----BEGIN CERTIFICATE-----\n"`. -/
def beginMarker : List Nat :=
  asciiBytes "-----BEGIN CERTIFICATE-----\n"

/-- The PEM footer marker removed second: `"\n-----END CERTIFICATE-----"`. -/
def endMarker : List Nat :=
  asciiBytes "\n-----END CERTIFICATE-----"

/-- Fuel-indexed body of `removeAll`: scan left to right; at a position
where `pat` matches, skip the whole occurrence and resume after it,
otherwise keep the byte and move one position.  One fuel unit is spent
per position reached, and every step consumes at least one list element,
so fuel equal to the list length never runs out. -/
def removeAllFuel (pat : List Nat) : Nat → List Nat → List Nat
  | 0, l => l
  | _ + 1, [] => []
  | fuel + 1, x :: xs =>
    if pat.isPrefixOf (x :: xs) ∧ pat ≠ [] then
      removeAllFuel pat fuel (xs.drop (pat.length - 1))
    else
      x :: removeAllFuel pat fuel xs

/-- `bytes.ReplaceAll(l, pat, []byte{})`: remove every non-overlapping
occurrence of `pat`, scanning left to right and resuming after each
match. -/
def removeAll (pat l : List Nat) : List Nat :=
  removeAllFuel pat l.length l

/-- Value of one byte in the standard base64 alphabet
(`base64.StdEncoding`'s decode map): `A`-`Z`, `a`-`z`, `0`-`9`, `+`, `/`. -/
def b64Val (b : Nat) : Option Nat :=
  if 65 ≤ b ∧ b ≤ 90 then some (b - 65)
  else if 97 ≤ b ∧ b ≤ 122 then some (b - 97 + 26)
  else if 48 ≤ b ∧ b ≤ 57 then some (b - 48 + 52)
  else if b = 43 then some 62
  else if b = 47 then some 63
  else none

/-- Quantum-by-quantum decoding of `base64.StdEncoding` on an input from
which LF and CR have already been removed (the Go decoder skips them
in place; see `base64Decode`).  Each group of four bytes yields three
output bytes; `=` padding (byte 61) is legal only as `xx==` or `xxx=` in
the final group, and any input that is not a whole number of groups, or
any byte outside the alphabet and legal padding, is a decode error
(`CorruptInputError`), modelled as `none`.  `StdEncoding` is non-strict,
so trailing bits of the last symbol are not checked. -/
def decodeGroups : List Nat → Option (List Nat)
  | [] => some []
  | b1 :: b2 :: b3 :: b4 :: rest =>
    match b64Val b1, b64Val b2 with
    | some v1, some v2 =>
      match b64Val b3 with
      | some v3 =>
        match b64Val b4 with
        | some v4 =>
          match decodeGroups rest with
          | some tl =>
            let val := v1 * 262144 + v2 * 4096 + v3 * 64 + v4
            some (val / 65536 :: val / 256 % 256 :: val % 256 :: tl)
          | none => none
        | none =>
          if b4 = 61 ∧ rest = [] then
            let val := v1 * 262144 + v2 * 4096 + v3 * 64
            some [val / 65536, val / 256 % 256]
          else none
      | none =>
        if b3 = 61 ∧ b4 = 61 ∧ rest = [] then
          some [(v1 * 262144 + v2 * 4096) / 65536]
        else none
    | _, _ => none
  | _ => none

/-- `base64.StdEncoding.DecodeString` on raw bytes: the Go decoder skips
LF (10) and CR (13) bytes wherever they occur before filling each
four-byte quantum, so its result equals strict quantum decoding of the
input with every LF and CR removed. -/
def base64Decode (bs : List Nat) : Option (List Nat) :=
  decodeGroups (bs.filter (fun b => b != 10 && b != 13))

/-- Go's `unicode.IsSpace` on a rune. -/
def goIsSpace (c : Char) : Bool :=
  c.toNat == 9 || c.toNat == 10 || c.toNat == 11 || c.toNat == 12 ||
  c.toNat == 13 || c.toNat == 32 || c.toNat == 133 || c.toNat == 160 ||
  c.toNat == 5760 || (decide (8192 ≤ c.toNat) && decide (c.toNat ≤ 8202)) ||
  c.toNat == 8232 || c.toNat == 8233 || c.toNat == 8239 ||
  c.toNat == 8287 || c.toNat == 12288

/-- `strings.TrimSpace`: drop leading and trailing white space. -/
def trimSpace (s : String) : String :=
  String.mk (((s.data.dropWhile goIsSpace).reverse.dropWhile goIsSpace).reverse)

/-- `strings.TrimPrefix`: drop `pre` from the front of `s` when present
(the program only uses the ASCII prefix `"notAfter="`, for which Go's
byte count and the character count coincide). -/
def trimPrefix (s pre : String) : String :=
  if pre.data.isPrefixOf s.data then String.mk (s.data.drop pre.data.length)
  else s

/-- `analyzeCertificate` of `main.go`: read the `tls.crt` blob, strip the
two PEM markers, base64-decode, run the openssl oracle on the raw bytes,
and trim `notAfter=` plus surrounding white space from its output.
The Go code wraps the base64 `CorruptInputError` text into its message;
the model keeps the fixed phrase without the wrapped cause. -/
def analyzeCertificate (openssl : List Nat → Except String String)
    (secret : Secret) : Except String String :=
  match lookupData secret.data "tls.crt" with
  | none => Except.error "tls.crt not found in secret"
  | some certData =>
    match base64Decode (removeAll endMarker (removeAll beginMarker certData)) with
    | none => Except.error "error decoding certificate data"
    | some certBytes =>
      match openssl certBytes with
      | Except.error e => Except.error ("openssl error: " ++ e)
      | Except.ok output => Except.ok (trimSpace (trimPrefix output "notAfter="))

/-- Body of the server loop of `getGatewaySecrets`: walk the `servers`
slice in order.  A server that is not a map aborts the whole extraction;
a server without a `tls` map, without a readable `tls.mode`, with
`mode == "PASSTHROUGH"`, or without a readable `tls.credentialName` is
skipped; otherwise the named secret is fetched from the gateway's
namespace `gwNs`, a fetch failure aborts the whole extraction, and a
fetched secret is appended in order. -/
def extractLoop (getSecret : String → String → Except String Secret)
    (gwNs : String) : List UValue → Except String (List Secret)
  | [] => Except.ok []
  | serverObj :: rest =>
    match serverObj with
    | UValue.map server =>
      match nestedMap (UValue.map server) ["tls"] with
      | none => extractLoop getSecret gwNs rest
      | some tls =>
        match nestedString (UValue.map tls) ["mode"] with
        | none => extractLoop getSecret gwNs rest
        | some mode =>
          if mode = "PASSTHROUGH" then extractLoop getSecret gwNs rest
          else
            match nestedString (UValue.map tls) ["credentialName"] with
            | none => extractLoop getSecret gwNs rest
            | some credentialName =>
              match getSecret gwNs credentialName with
              | Except.error e =>
                Except.error ("error getting secret " ++ credentialName ++
                  " in namespace " ++ gwNs ++ ": " ++ e)
              | Except.ok secret =>
                match extractLoop getSecret gwNs rest with
                | Except.error e => Except.error e
                | Except.ok tl => Except.ok (secret :: tl)
    | _ => Except.error "invalid server object found"

/-- `getGatewaySecrets` of `main.go`: read `spec.servers` as a slice
(failure when absent or wrong-shaped; the Go code wraps the accessor
error text, which the model omits) and run the server loop. -/
def getGatewaySecrets (getSecret : String → String → Except String Secret)
    (gw : Gateway) : Except String (List Secret) :=
  match nestedSlice gw.obj ["spec", "servers"] with
  | none => Except.error "error getting gateway servers"
  | some servers => extractLoop getSecret gw.ns servers

/-- One printed line of the program: the per-gateway diagnostic of line
104, the per-secret diagnostic of line 113, or the result record of line
117 of `main.go`. -/
inductive Event where
  | gwError (ns msg : String)
  | secretError (ns gwName msg : String)
  | record (ns gwName secretName expiry : String)
deriving DecidableEq

/-- The exact text of each printed line (`fmt.Printf` format strings of
`main.go`, without the trailing newline). -/
def renderEvent : Event → String
  | Event.gwError ns msg =>
    "error getting secrets for gateway in namespace " ++ ns ++ ": " ++ msg
  | Event.secretError ns gwName msg =>
    "error analyzing certificate for gateway " ++ gwName ++ " in namespace " ++
      ns ++ ": " ++ msg
  | Event.record ns gwName secretName expiry =>
    "Certificate " ++ secretName ++ " in gateway " ++ gwName ++
      " in namespace " ++ ns ++ " expiration date is " ++ expiry

/-- The namespace a printed line reports about. -/
def eventNs : Event → String
  | Event.gwError ns _ => ns
  | Event.secretError ns _ _ => ns
  | Event.record ns _ _ _ => ns

/-- Inner secret loop of `getNsGateways`: analyze each secret of a
gateway in order; an analysis failure prints the per-secret diagnostic
and continues, a success prints the result record. -/
def processSecrets (openssl : List Nat → Except String String)
    (ns gwName : String) : List Secret → List Event
  | [] => []
  | sec :: rest =>
    match analyzeCertificate openssl sec with
    | Except.error e =>
      Event.secretError ns gwName e :: processSecrets openssl ns gwName rest
    | Except.ok expiryDate =>
      Event.record ns gwName sec.name expiryDate ::
        processSecrets openssl ns gwName rest

/-- Per-gateway body of `getNsGateways`: an extraction failure prints the
per-gateway diagnostic (naming only the namespace) and the gateway is
skipped; otherwise every extracted secret is analyzed. -/
def processGateway (cl : Cluster) (ns : String) (gw : Gateway) : List Event :=
  match getGatewaySecrets cl.getSecret gw with
  | Except.error e => [Event.gwError ns e]
  | Except.ok secrets => processSecrets cl.openssl ns gw.name secrets

/-- Gateway loop of `getNsGateways` over one namespace's listing. -/
def processGateways (cl : Cluster) (ns : String) : List Gateway → List Event
  | [] => []
  | gw :: rest => processGateway cl ns gw ++ processGateways cl ns rest

/-- `getNsGateways` of `main.go`: for each namespace in order, list its
gateways; a listing failure returns that error immediately (second
component `some e`), abandoning the current and all later namespaces;
otherwise all gateways of the namespace are processed and the walk
continues.  The first component collects every line printed before the
walk ended. -/
def getNsGateways (cl : Cluster) : List String → List Event × Option String
  | [] => ([], none)
  | ns :: rest =>
    match cl.gateways ns with
    | Except.error e => ([], some e)
    | Except.ok gwList =>
      match getNsGateways cl rest with
      | (evs, err) => (processGateways cl ns gwList ++ evs, err)

/-- Namespace filter loop of `getNamespaces`: keep every listed name
except the two fixed literals `"kube-system"` and `"xcp-multicluster"`. -/
def nsFilterLoop : List String → List String
  | [] => []
  | n :: rest =>
    if n ≠ "kube-system" ∧ n ≠ "xcp-multicluster" then n :: nsFilterLoop rest
    else nsFilterLoop rest

/-- `getNamespaces` of `main.go`: list the namespaces (wrapping a listing
error) and filter out the two reserved names. -/
def getNamespaces (cl : Cluster) : Except String (List String) :=
  match cl.namespaces with
  | Except.error e => Except.error ("unable to get the list of namespaces: " ++ e)
  | Except.ok items => Except.ok (nsFilterLoop items)

/-- `main` of `main.go` after client construction: get the namespace list
(a failure prints one error line and stops), then walk it with
`getNsGateways` (a failure there prints one error line after the lines
already emitted).  The second component is the fatal error line, if any. -/
def mainScan (cl : Cluster) : List Event × Option String :=
  match getNamespaces cl with
  | Except.error e => ([], some ("error getting the list of namespaces: " ++ e))
  | Except.ok nsList =>
    match getNsGateways cl nsList with
    | (evs, some e) => (evs, some ("error getting resources per namespace: " ++ e))
    | (evs, none) => (evs, none)

/-- Characterization of the server-loop branches, used to state claims:
the credential name of a server that reaches the fetch step, i.e. a
map-shaped server with a `tls` map, a readable `mode` different from
`"PASSTHROUGH"`, and a readable `credentialName`; `none` for every server
the loop skips, and for non-map servers. -/
def terminatedCred (s : UValue) : Option String :=
  match s with
  | UValue.map server =>
    match nestedMap (UValue.map server) ["tls"] with
    | none => none
    | some tls =>
      match nestedString (UValue.map tls) ["mode"] with
      | none => none
      | some mode =>
        if mode = "PASSTHROUGH" then none
        else nestedString (UValue.map tls) ["credentialName"]
  | _ => none

/-- Whether a server entry is a well-formed record (a map), the shape the
loop requires of every entry. -/
def wellFormedServer : UValue → Bool
  | UValue.map _ => true
  | _ => false

/-- Whether the character list `needle` is a prefix of `hay`. -/
def charsHavePrefix : List Char → List Char → Bool
  | [], _ => true
  | _ :: _, [] => false
  | a :: as, b :: bs => a == b && charsHavePrefix as bs

/-- Whether the character list `needle` occurs contiguously in `hay`. -/
def charsContain (needle : List Char) : List Char → Bool
  | [] => charsHavePrefix needle []
  | c :: cs => charsHavePrefix needle (c :: cs) || charsContain needle cs

/-- Whether `needle` occurs as a contiguous substring of `haystack`. -/
def containsStr (needle haystack : String) : Bool :=
  charsContain needle.data haystack.data

/-- Characterization of a fetch failure at one server: the server reaches
the fetch step with credential `c` and the secret getter fails on it. -/
def fetchFailAt (getSecret : String → String → Except String Secret)
    (gwNs : String) (s : UValue) : Prop :=
  ∃ c, terminatedCred s = some c ∧ ∃ e, getSecret gwNs c = Except.error e

/-- The secret one server contributes on a fully successful extraction:
the fetched secret of a server that reaches the fetch step, `none` for a
skipped server. -/
def fetchedSecret (getSecret : String → String → Except String Secret)
    (gwNs : String) (s : UValue) : Option Secret :=
  match terminatedCred s with
  | none => none
  | some c =>
    match getSecret gwNs c with
    | Except.ok sec => some sec
    | Except.error _ => none

/-- Concrete sample: an unwrapped base64 certificate payload. -/
def secGood : Secret :=
  ⟨"shop-cert", [("tls.crt", asciiBytes "TUlJQkZB")]⟩

/-- Concrete sample: a conventionally line-wrapped PEM payload whose body
keeps interior newlines after the two markers are removed. -/
def pemWrapped : List Nat :=
  asciiBytes "-----BEGIN CERTIFICATE-----\nTUlJ\nQkZB\n-----END CERTIFICATE-----\n"

/-- Concrete sample secret holding `pemWrapped` under `tls.crt`. -/
def secWrapped : Secret :=
  ⟨"wrapped-cert", [("tls.crt", pemWrapped)]⟩

/-- Concrete sample: a payload with a byte (`!`, 33) outside the base64
alphabet, padding, LF and CR. -/
def secBadB64 : Secret :=
  ⟨"bad-cert", [("tls.crt", asciiBytes "TUlJ!kZB")]⟩

/-- Concrete sample: a secret without the `tls.crt` key. -/
def secNoCrt : Secret :=
  ⟨"nocrt", [("other", [])]⟩

/-- Concrete sample: a gateway whose object has no `spec.servers`, so
secret extraction fails. -/
def gwEdge : Gateway :=
  ⟨"edge", "shop", UValue.map []⟩

/-- Concrete sample: one server terminating TLS with credential
`shop-cert`. -/
def serverSimple : UValue :=
  UValue.map [("tls", UValue.map
    [("mode", UValue.str "SIMPLE"), ("credentialName", UValue.str "shop-cert")])]

/-- Concrete sample: a server whose credential does not exist. -/
def serverMissing : UValue :=
  UValue.map [("tls", UValue.map
    [("mode", UValue.str "SIMPLE"), ("credentialName", UValue.str "missing")])]

/-- Concrete sample: a pass-through server. -/
def serverPass : UValue :=
  UValue.map [("tls", UValue.map
    [("mode", UValue.str "PASSTHROUGH"), ("credentialName", UValue.str "shop-cert")])]

/-- Concrete sample: a gateway with one terminating server. -/
def gwGood : Gateway :=
  ⟨"good", "shop",
    UValue.map [("spec", UValue.map [("servers", UValue.list [serverSimple])])]⟩

/-- Concrete sample: a gateway naming the same credential in two
servers. -/
def gwDup : Gateway :=
  ⟨"dup", "shop",
    UValue.map [("spec", UValue.map
      [("servers", UValue.list [serverSimple, serverPass, serverSimple])])]⟩

/-- Concrete sample: a gateway whose only server references a missing
secret. -/
def gwBadFetch : Gateway :=
  ⟨"badfetch", "shop",
    UValue.map [("spec", UValue.map [("servers", UValue.list [serverMissing])])]⟩

/-- Concrete openssl oracle reporting a fixed not-after line. -/
def opensslConst : List Nat → Except String String :=
  fun _ => Except.ok "notAfter=Jan  1 00:00:00 2030 GMT\n"

/-- Concrete secret getter of the demo cluster: only `shop-cert` in
namespace `shop` exists. -/
def getSecretDemo : String → String → Except String Secret :=
  fun ns name =>
    if ns = "shop" ∧ name = "shop-cert" then Except.ok secGood
    else Except.error "not found"

/-- Concrete demo cluster: one scanned namespace `shop` holding a failing
gateway and a healthy one. -/
def clusterDemo : Cluster :=
  ⟨Except.ok ["shop", "kube-system"],
    fun ns => if ns = "shop" then Except.ok [gwEdge, gwGood]
      else Except.error "unexpected namespace",
    getSecretDemo,
    opensslConst⟩

/-- Concrete cluster whose gateway listing fails in namespace `bad`. -/
def clusterC2 : Cluster :=
  ⟨Except.ok ["shop", "bad", "later"],
    fun ns => if ns = "bad" then Except.error "boom" else Except.ok [],
    getSecretDemo,
    opensslConst⟩

/-- Membership in the namespace filter loop: a name is kept exactly when
it is listed and differs from both reserved literals. -/
theorem mem_nsFilterLoop (items : List String) (n : String) :
    n ∈ nsFilterLoop items ↔
      (n ∈ items ∧ n ≠ "kube-system" ∧ n ≠ "xcp-multicluster") := by
  induction items with
  | nil => simp [nsFilterLoop]
  | cons m rest ih =>
    by_cases hm : m ≠ "kube-system" ∧ m ≠ "xcp-multicluster"
    · rw [nsFilterLoop, if_pos hm]
      simp only [List.mem_cons]
      constructor
      · rintro (rfl | hn)
        · exact ⟨Or.inl rfl, hm⟩
        · obtain ⟨h1, h2⟩ := ih.mp hn
          exact ⟨Or.inr h1, h2⟩
      · rintro ⟨rfl | h1, h2⟩
        · exact Or.inl rfl
        · exact Or.inr (ih.mpr ⟨h1, h2⟩)
    · rw [nsFilterLoop, if_neg hm]
      simp only [List.mem_cons]
      constructor
      · intro hn
        obtain ⟨h1, h2⟩ := ih.mp hn
        exact ⟨Or.inr h1, h2⟩
      · rintro ⟨rfl | h1, h2⟩
        · exact absurd h2 hm
        · exact ih.mpr ⟨h1, h2⟩

/-- C8: for every successful namespace listing, the scanned namespaces are
exactly the listed ones minus the two fixed literals `"kube-system"` and
`"xcp-multicluster"` (the internal cross-cluster namespace); every other
namespace is kept.  The filter is hard-coded in `getNamespaces`, which
takes no configuration. -/
theorem c8_namespace_filter (cl : Cluster) (items : List String)
    (h : cl.namespaces = Except.ok items) :
    getNamespaces cl = Except.ok (nsFilterLoop items) ∧
    ∀ n, n ∈ nsFilterLoop items ↔
      (n ∈ items ∧ n ≠ "kube-system" ∧ n ≠ "xcp-multicluster") :=
  ⟨by simp [getNamespaces, h], fun n => mem_nsFilterLoop items n⟩

/-- Witness for C8 at a concrete listing: `shop` is kept, and the reserved
names are dropped by the same filter. -/
theorem c8_namespace_filter_witness :
    clusterDemo.namespaces = Except.ok ["shop", "kube-system"] ∧
    getNamespaces clusterDemo = Except.ok ["shop"] ∧
    ("kube-system" ∈ nsFilterLoop ["shop", "kube-system"] ↔
      ("kube-system" ∈ ["shop", "kube-system"] ∧
        "kube-system" ≠ "kube-system" ∧ "kube-system" ≠ "xcp-multicluster")) :=
  ⟨rfl, (c8_namespace_filter clusterDemo ["shop", "kube-system"] rfl).1,
    (c8_namespace_filter clusterDemo ["shop", "kube-system"] rfl).2 "kube-system"⟩

/-- C4: a well-formed (map-shaped) server entry with no `tls` map, or with
`tls.mode` absent or unreadable or equal to `"PASSTHROUGH"`, or with
`tls.credentialName` absent or unreadable, contributes nothing: the loop
fetches no secret for it and continues with the remaining servers without
error, for every secret getter. -/
theorem c4_soft_skip (getSecret : String → String → Except String Secret)
    (gwNs : String) (server : List (String × UValue)) (rest : List UValue)
    (h : nestedMap (UValue.map server) ["tls"] = none ∨
      (∃ tls, nestedMap (UValue.map server) ["tls"] = some tls ∧
        (nestedString (UValue.map tls) ["mode"] = none ∨
          nestedString (UValue.map tls) ["mode"] = some "PASSTHROUGH")) ∨
      (∃ tls mode, nestedMap (UValue.map server) ["tls"] = some tls ∧
        nestedString (UValue.map tls) ["mode"] = some mode ∧
        mode ≠ "PASSTHROUGH" ∧
        nestedString (UValue.map tls) ["credentialName"] = none)) :
    extractLoop getSecret gwNs (UValue.map server :: rest) =
      extractLoop getSecret gwNs rest := by
  rcases h with h1 | ⟨tls, h1, h2 | h2⟩ | ⟨tls, mode, h1, h2, h3, h4⟩
  · simp [extractLoop, h1]
  · simp [extractLoop, h1, h2]
  · simp [extractLoop, h1, h2]
  · simp [extractLoop, h1, h2, h3, h4]

/-- Witness for C4 at a concrete pass-through server: skipped with no
fetch, even under a secret getter that always fails. -/
theorem c4_soft_skip_witness :
    nestedString (UValue.map [("mode", UValue.str "PASSTHROUGH"),
      ("credentialName", UValue.str "shop-cert")]) ["mode"] =
        some "PASSTHROUGH" ∧
    extractLoop (fun _ _ => Except.error "no") "shop" [serverPass] =
      extractLoop (fun _ _ => Except.error "no") "shop" [] ∧
    extractLoop (fun _ _ => Except.error "no") "shop" [serverPass] =
      Except.ok [] :=
  ⟨rfl,
    c4_soft_skip (fun _ _ => Except.error "no") "shop"
      [("tls", UValue.map [("mode", UValue.str "PASSTHROUGH"),
        ("credentialName", UValue.str "shop-cert")])] []
      (Or.inr (Or.inl ⟨[("mode", UValue.str "PASSTHROUGH"),
        ("credentialName", UValue.str "shop-cert")], rfl, Or.inr rfl⟩)),
    rfl⟩

/-- C3: a failure analyzing one secret is non-fatal and scoped to that
(gateway, secret) pair: the walker emits the per-secret diagnostic, whose
text names the namespace, the gateway and the cause, produces no result
record for that secret, and continues with the remaining secrets of the
same gateway; a secret missing the `tls.crt` key yields exactly the
failure message naming that key. -/
theorem c3_secret_failure_scoped (openssl : List Nat → Except String String)
    (ns gwName : String) (sec : Secret) (rest : List Secret) (e : String)
    (h : analyzeCertificate openssl sec = Except.error e) :
    processSecrets openssl ns gwName (sec :: rest) =
      Event.secretError ns gwName e :: processSecrets openssl ns gwName rest ∧
    renderEvent (Event.secretError ns gwName e) =
      "error analyzing certificate for gateway " ++ gwName ++
        " in namespace " ++ ns ++ ": " ++ e ∧
    (lookupData sec.data "tls.crt" = none →
      e = "tls.crt not found in secret" ∧ containsStr "tls.crt" e = true) := by
  refine ⟨by simp [processSecrets, h], rfl, ?_⟩
  intro hk
  have he : Except.error (ε := String) (α := String) e =
      Except.error "tls.crt not found in secret" := by
    rw [← h]
    simp [analyzeCertificate, hk]
  have he2 : e = "tls.crt not found in secret" := by
    injection he
  subst he2
  exact ⟨rfl, by decide⟩

/-- Witness for C3 at a concrete secret missing `tls.crt`: the diagnostic
is emitted, the sibling secret still yields its record. -/
theorem c3_secret_failure_scoped_witness :
    analyzeCertificate opensslConst secNoCrt =
      Except.error "tls.crt not found in secret" ∧
    lookupData secNoCrt.data "tls.crt" = none ∧
    processSecrets opensslConst "shop" "good" [secNoCrt, secGood] =
      Event.secretError "shop" "good" "tls.crt not found in secret" ::
        processSecrets opensslConst "shop" "good" [secGood] ∧
    processSecrets opensslConst "shop" "good" [secGood] =
      [Event.record "shop" "good" "shop-cert" "Jan  1 00:00:00 2030 GMT"] :=
  ⟨rfl, rfl,
    (c3_secret_failure_scoped opensslConst "shop" "good" secNoCrt [secGood]
      "tls.crt not found in secret" rfl).1,
    by decide⟩

/-- C7: when the `tls.crt` payload decodes and the capability reports
`output`, the analysis succeeds with exactly `output` stripped of the
fixed `notAfter=` prefix and of surrounding white space, the walker emits
one result record carrying that string, and the rendered line is exactly
`Certificate <secretName> in gateway <gatewayName> in namespace
<namespace> expiration date is <expiryDate>`. -/
theorem c7_expiry_format (openssl : List Nat → Except String String)
    (ns gwName : String) (sec : Secret) (rest : List Secret)
    (certData certBytes : List Nat) (output : String)
    (hkey : lookupData sec.data "tls.crt" = some certData)
    (hdec : base64Decode (removeAll endMarker (removeAll beginMarker certData)) =
      some certBytes)
    (hout : openssl certBytes = Except.ok output) :
    analyzeCertificate openssl sec =
      Except.ok (trimSpace (trimPrefix output "notAfter=")) ∧
    processSecrets openssl ns gwName (sec :: rest) =
      Event.record ns gwName sec.name (trimSpace (trimPrefix output "notAfter=")) ::
        processSecrets openssl ns gwName rest ∧
    renderEvent (Event.record ns gwName sec.name
        (trimSpace (trimPrefix output "notAfter="))) =
      "Certificate " ++ sec.name ++ " in gateway " ++ gwName ++
        " in namespace " ++ ns ++ " expiration date is " ++
        trimSpace (trimPrefix output "notAfter=") := by
  have ha : analyzeCertificate openssl sec =
      Except.ok (trimSpace (trimPrefix output "notAfter=")) := by
    simp [analyzeCertificate, hkey, hdec, hout]
  exact ⟨ha, by simp [processSecrets, ha], rfl⟩

/-- Witness for C7 at the concrete demo secret: the capability output
`notAfter=Jan  1 00:00:00 2030 GMT` followed by a newline becomes the
record text `Jan  1 00:00:00 2030 GMT`. -/
theorem c7_expiry_format_witness :
    lookupData secGood.data "tls.crt" = some (asciiBytes "TUlJQkZB") ∧
    opensslConst (asciiBytes "MIIBFA") =
      Except.ok "notAfter=Jan  1 00:00:00 2030 GMT\n" ∧
    analyzeCertificate opensslConst secGood =
      Except.ok (trimSpace (trimPrefix "notAfter=Jan  1 00:00:00 2030 GMT\n"
        "notAfter=")) ∧
    trimSpace (trimPrefix "notAfter=Jan  1 00:00:00 2030 GMT\n" "notAfter=") =
      "Jan  1 00:00:00 2030 GMT" :=
  ⟨rfl, rfl,
    (c7_expiry_format opensslConst "shop" "good" secGood []
      (asciiBytes "TUlJQkZB") (asciiBytes "MIIBFA")
      "notAfter=Jan  1 00:00:00 2030 GMT\n" rfl rfl rfl).1,
    by decide⟩

/-- C1 counterexample: in the demo cluster the extraction for gateway
`edge` in namespace `shop` fails, the full scan emits exactly one
diagnostic for it, and that diagnostic's text does not contain the
gateway's name `edge` anywhere — the claim that the diagnostic identifies
the gateway is false; it identifies only the namespace.  The sibling
gateway `good` still emits its record. -/
theorem c1_counterexample :
    getGatewaySecrets clusterDemo.getSecret gwEdge =
      Except.error "error getting gateway servers" ∧
    (getNsGateways clusterDemo ["shop"]).1 =
      [Event.gwError "shop" "error getting gateway servers",
        Event.record "shop" "good" "shop-cert" "Jan  1 00:00:00 2030 GMT"] ∧
    gwEdge.name = "edge" ∧
    containsStr "edge"
      (renderEvent (Event.gwError "shop" "error getting gateway servers")) =
        false :=
  ⟨rfl, by decide, rfl, by decide⟩

/-- C1 (amended): a failure extracting secrets for one gateway is
non-fatal: the walker emits one diagnostic identifying the namespace (but
not the gateway's name) and carrying the cause, skips that gateway, and
proceeds to the next gateway of the same namespace, whose own events are
still emitted unchanged. -/
theorem c1_gateway_failure_nonfatal (cl : Cluster) (ns : String)
    (gw : Gateway) (rest : List Gateway) (e : String)
    (h : getGatewaySecrets cl.getSecret gw = Except.error e) :
    processGateways cl ns (gw :: rest) =
      Event.gwError ns e :: processGateways cl ns rest ∧
    renderEvent (Event.gwError ns e) =
      "error getting secrets for gateway in namespace " ++ ns ++ ": " ++ e :=
  ⟨by simp [processGateways, processGateway, h], rfl⟩

/-- Witness for C1 (amended) at the demo cluster: the failing `edge`
gateway contributes one diagnostic, after which the sibling `good`
gateway is still processed and emits its record. -/
theorem c1_gateway_failure_nonfatal_witness :
    getGatewaySecrets clusterDemo.getSecret gwEdge =
      Except.error "error getting gateway servers" ∧
    processGateways clusterDemo "shop" [gwEdge, gwGood] =
      Event.gwError "shop" "error getting gateway servers" ::
        processGateways clusterDemo "shop" [gwGood] ∧
    processGateways clusterDemo "shop" [gwGood] =
      [Event.record "shop" "good" "shop-cert" "Jan  1 00:00:00 2030 GMT"] :=
  ⟨rfl,
    (c1_gateway_failure_nonfatal clusterDemo "shop" gwEdge [gwGood]
      "error getting gateway servers" rfl).1,
    by decide⟩

/-- Splitting the namespace walk: while every namespace of a prefix lists
its gateways successfully, the walk of `pre ++ tail` emits the prefix's
events followed by the tail's, and ends the way the tail ends. -/
theorem getNsGateways_append (cl : Cluster) (pre tail : List String)
    (h : ∀ ns ∈ pre, ∃ gws, cl.gateways ns = Except.ok gws) :
    getNsGateways cl (pre ++ tail) =
      ((getNsGateways cl pre).1 ++ (getNsGateways cl tail).1,
        (getNsGateways cl tail).2) := by
  induction pre with
  | nil => simp [getNsGateways]
  | cons ns0 pre ih =>
    obtain ⟨gws, hg⟩ := h ns0 (List.mem_cons_self ns0 pre)
    have ih2 := ih (fun ns hns => h ns (List.mem_cons_of_mem ns0 hns))
    simp [getNsGateways, hg, ih2]

/-- C2: a gateway-listing failure in one namespace is fatal to the whole
scan: with every earlier namespace listing successfully, the walk of
`pre ++ nsBad :: post` returns exactly the events of `pre` and surfaces
the listing error; nothing is emitted for `nsBad` or for any namespace
after it, and `main` prints the error once, wrapped in its fixed
prefix. -/
theorem c2_listing_failure_fatal (cl : Cluster) (pre post : List String)
    (nsBad e : String)
    (hpre : ∀ ns ∈ pre, ∃ gws, cl.gateways ns = Except.ok gws)
    (hfail : cl.gateways nsBad = Except.error e) :
    getNsGateways cl (pre ++ nsBad :: post) =
      ((getNsGateways cl pre).1, some e) ∧
    (∀ items, cl.namespaces = Except.ok items →
      nsFilterLoop items = pre ++ nsBad :: post →
      mainScan cl = ((getNsGateways cl pre).1,
        some ("error getting resources per namespace: " ++ e))) := by
  have h1 : getNsGateways cl (nsBad :: post) =
      (([] : List Event), some e) := by
    simp [getNsGateways, hfail]
  have h2 := getNsGateways_append cl pre (nsBad :: post) hpre
  rw [h1] at h2
  refine ⟨by rw [h2]; simp, ?_⟩
  intro items hns hfilter
  have h3 : getNsGateways cl (nsFilterLoop items) =
      ((getNsGateways cl pre).1, some e) := by
    rw [hfilter, h2]; simp
  simp [mainScan, getNamespaces, hns, h3]

/-- Witness for C2 at a concrete cluster whose listing fails in namespace
`bad`: the scan stops there and `later` is never reached. -/
theorem c2_listing_failure_fatal_witness :
    clusterC2.gateways "bad" = Except.error "boom" ∧
    getNsGateways clusterC2 (["shop"] ++ "bad" :: ["later"]) =
      ((getNsGateways clusterC2 ["shop"]).1, some "boom") ∧
    mainScan clusterC2 = ((getNsGateways clusterC2 ["shop"]).1,
      some ("error getting resources per namespace: " ++ "boom")) :=
  ⟨rfl,
    (c2_listing_failure_fatal clusterC2 ["shop"] ["later"] "bad" "boom"
      (by intro ns hns; simp at hns; subst hns; exact ⟨[], rfl⟩) rfl).1,
    (c2_listing_failure_fatal clusterC2 ["shop"] ["later"] "bad" "boom"
      (by intro ns hns; simp at hns; subst hns; exact ⟨[], rfl⟩) rfl).2
      ["shop", "bad", "later"] rfl rfl⟩

/-- One step of the server loop on a map-shaped server, phrased through
`terminatedCred`: a server the loop skips contributes nothing, a server
reaching the fetch step either aborts with the fetch error message or
prepends the fetched secret. -/
theorem extractLoop_cons_map (getSecret : String → String → Except String Secret)
    (gwNs : String) (server : List (String × UValue)) (rest : List UValue) :
    extractLoop getSecret gwNs (UValue.map server :: rest) =
      match terminatedCred (UValue.map server) with
      | none => extractLoop getSecret gwNs rest
      | some c =>
        match getSecret gwNs c with
        | Except.error e =>
          Except.error ("error getting secret " ++ c ++ " in namespace " ++
            gwNs ++ ": " ++ e)
        | Except.ok secret =>
          match extractLoop getSecret gwNs rest with
          | Except.error e => Except.error e
          | Except.ok tl => Except.ok (secret :: tl) := by
  cases h1 : nestedMap (UValue.map server) ["tls"] with
  | none => simp [extractLoop, terminatedCred, h1]
  | some tls =>
    cases h2 : nestedString (UValue.map tls) ["mode"] with
    | none => simp [extractLoop, terminatedCred, h1, h2]
    | some mode =>
      by_cases hm : mode = "PASSTHROUGH"
      · simp [extractLoop, terminatedCred, h1, h2, hm]
      · cases h3 : nestedString (UValue.map tls) ["credentialName"] with
        | none => simp [extractLoop, terminatedCred, h1, h2, hm, h3]
        | some c => simp [extractLoop, terminatedCred, h1, h2, hm, h3]

/-- The server loop fails exactly when some server of the list is not a
map, or some server reaches the fetch step and its fetch fails. -/
theorem extractLoop_error_iff (getSecret : String → String → Except String Secret)
    (gwNs : String) (servers : List UValue) :
    (∃ e, extractLoop getSecret gwNs servers = Except.error e) ↔
      (∃ s ∈ servers, wellFormedServer s = false ∨ fetchFailAt getSecret gwNs s) := by
  induction servers with
  | nil => simp [extractLoop]
  | cons s rest ih =>
    simp only [List.mem_cons, exists_eq_or_imp]
    cases s with
    | map server =>
      have hstep := extractLoop_cons_map getSecret gwNs server rest
      cases htc : terminatedCred (UValue.map server) with
      | none =>
        simp only [htc] at hstep
        have hnofail : ¬ (wellFormedServer (UValue.map server) = false ∨
            fetchFailAt getSecret gwNs (UValue.map server)) := by
          rintro (hw | ⟨c, hc, _⟩)
          · simp [wellFormedServer] at hw
          · rw [htc] at hc; cases hc
        simp only [hnofail, false_or, hstep]
        exact ih
      | some c =>
        simp only [htc] at hstep
        cases hg : getSecret gwNs c with
        | error e =>
          simp only [hg] at hstep
          refine iff_of_true ?_ (Or.inl (Or.inr ⟨c, htc, e, hg⟩))
          exact ⟨"error getting secret " ++ c ++ " in namespace " ++
            gwNs ++ ": " ++ e, hstep⟩
        | ok sec =>
          simp only [hg] at hstep
          have hnofail : ¬ (wellFormedServer (UValue.map server) = false ∨
              fetchFailAt getSecret gwNs (UValue.map server)) := by
            rintro (hw | ⟨c2, hc2, e2, hg2⟩)
            · simp [wellFormedServer] at hw
            · rw [htc] at hc2
              injection hc2 with hc2
              subst hc2
              rw [hg] at hg2
              cases hg2
          simp only [hnofail, false_or]
          cases hr : extractLoop getSecret gwNs rest with
          | error e0 =>
            simp only [hr] at hstep
            refine iff_of_true ⟨e0, hstep⟩ (ih.mp ⟨e0, hr⟩)
          | ok tl =>
            simp only [hr] at hstep
            refine iff_of_false ?_ ?_
            · rintro ⟨e1, he1⟩
              rw [hstep] at he1
              cases he1
            · intro hrest
              obtain ⟨e1, he1⟩ := ih.mpr hrest
              rw [hr] at he1
              cases he1
    | str s0 =>
      exact iff_of_true ⟨"invalid server object found", by simp [extractLoop]⟩
        (Or.inl (Or.inl (by simp [wellFormedServer])))
    | list l0 =>
      exact iff_of_true ⟨"invalid server object found", by simp [extractLoop]⟩
        (Or.inl (Or.inl (by simp [wellFormedServer])))
    | other =>
      exact iff_of_true ⟨"invalid server object found", by simp [extractLoop]⟩
        (Or.inl (Or.inl (by simp [wellFormedServer])))

/-- On a fully successful extraction, the returned list is exactly the
in-order map of the servers through `fetchedSecret`: each server that
reaches the fetch step contributes its fetched secret at its position,
every other server contributes nothing, and nothing is deduplicated. -/
theorem extractLoop_ok_filterMap (getSecret : String → String → Except String Secret)
    (gwNs : String) (servers : List UValue) (l : List Secret)
    (h : extractLoop getSecret gwNs servers = Except.ok l) :
    l = servers.filterMap (fetchedSecret getSecret gwNs) := by
  induction servers generalizing l with
  | nil =>
    simp only [extractLoop] at h
    injection h with h
    simp [h.symm]
  | cons s rest ih =>
    cases s with
    | map server =>
      have hstep := extractLoop_cons_map getSecret gwNs server rest
      cases htc : terminatedCred (UValue.map server) with
      | none =>
        simp only [htc] at hstep
        rw [hstep] at h
        rw [List.filterMap_cons_none]
        · exact ih l h
        · simp [fetchedSecret, htc]
      | some c =>
        simp only [htc] at hstep
        cases hg : getSecret gwNs c with
        | error e =>
          simp only [hg] at hstep
          rw [hstep] at h
          cases h
        | ok sec =>
          simp only [hg] at hstep
          cases hr : extractLoop getSecret gwNs rest with
          | error e0 =>
            simp only [hr] at hstep
            rw [hstep] at h
            cases h
          | ok tl =>
            simp only [hr] at hstep
            rw [hstep] at h
            injection h with h
            have hfs : fetchedSecret getSecret gwNs (UValue.map server) =
                some sec := by
              simp [fetchedSecret, htc, hg]
            rw [← h]
            simp only [List.filterMap_cons, hfs]
            exact congrArg (fun x => sec :: x) (ih tl hr)
    | str s0 => simp [extractLoop] at h
    | list l0 => simp [extractLoop] at h
    | other => simp [extractLoop] at h

/-- Appending strings concatenates their character lists. -/
theorem stringData_append (a b : String) : (a ++ b).data = a.data ++ b.data := by
  cases a
  cases b
  rfl

/-- A list is a prefix of itself extended by anything. -/
theorem charsHavePrefix_append (l t : List Char) :
    charsHavePrefix l (l ++ t) = true := by
  induction l with
  | nil => rfl
  | cons c cs ih => simp [charsHavePrefix, ih]

/-- A list occurs at the front of itself extended by anything. -/
theorem charsContain_self_append (n t : List Char) :
    charsContain n (n ++ t) = true := by
  cases hn : n ++ t with
  | nil =>
    have h0 : n = [] := by
      cases n with
      | nil => rfl
      | cons c cs => simp at hn
    subst h0
    rfl
  | cons c cs =>
    rw [charsContain, ← hn]
    simp [charsHavePrefix_append]

/-- Occurrence is preserved by extending the haystack on the left. -/
theorem charsContain_cons (n : List Char) (c : Char) (t : List Char)
    (h : charsContain n t = true) : charsContain n (c :: t) = true := by
  rw [charsContain]
  simp [h]

/-- A needle occurs in any haystack that splits around it. -/
theorem charsContain_of_split (n h p s : List Char)
    (heq : h = p ++ n ++ s) : charsContain n h = true := by
  subst heq
  induction p with
  | nil => simpa using charsContain_self_append n s
  | cons c cs ih => exact charsContain_cons n c _ ih

/-- A needle occurs in any string whose character list splits around the
needle's character list. -/
theorem containsStr_true (n hay : String) (p s : List Char)
    (heq : hay.data = p ++ n.data ++ s) : containsStr n hay = true :=
  charsContain_of_split n.data hay.data p s heq

/-- C6: for every gateway, secret extraction fails exactly when
`spec.servers` is absent or not a slice, or some server entry is not a
map, or some server reaching the fetch step has a failing secret fetch
in the gateway's own namespace; the `Except` result makes the failure
immediate (no partial secret list accompanies an error), and the fetch
failure's message names the credential and the namespace. -/
theorem c6_extraction_failure_iff (getSecret : String → String → Except String Secret)
    (gw : Gateway) :
    ((∃ e, getGatewaySecrets getSecret gw = Except.error e) ↔
      (nestedSlice gw.obj ["spec", "servers"] = none ∨
        ∃ servers, nestedSlice gw.obj ["spec", "servers"] = some servers ∧
          ∃ s ∈ servers,
            wellFormedServer s = false ∨ fetchFailAt getSecret gw.ns s)) ∧
    (∀ server rest tls mode c e0,
      nestedMap (UValue.map server) ["tls"] = some tls →
      nestedString (UValue.map tls) ["mode"] = some mode →
      mode ≠ "PASSTHROUGH" →
      nestedString (UValue.map tls) ["credentialName"] = some c →
      getSecret gw.ns c = Except.error e0 →
      extractLoop getSecret gw.ns (UValue.map server :: rest) =
        Except.error ("error getting secret " ++ c ++ " in namespace " ++
          gw.ns ++ ": " ++ e0) ∧
      containsStr c ("error getting secret " ++ c ++ " in namespace " ++
        gw.ns ++ ": " ++ e0) = true ∧
      containsStr gw.ns ("error getting secret " ++ c ++ " in namespace " ++
        gw.ns ++ ": " ++ e0) = true) := by
  constructor
  · cases hs : nestedSlice gw.obj ["spec", "servers"] with
    | none =>
      refine iff_of_true ⟨"error getting gateway servers", ?_⟩ (Or.inl rfl)
      simp [getGatewaySecrets, hs]
    | some servers =>
      have hred : getGatewaySecrets getSecret gw =
          extractLoop getSecret gw.ns servers := by
        simp [getGatewaySecrets, hs]
      rw [hred]
      rw [extractLoop_error_iff]
      constructor
      · intro hbad
        exact Or.inr ⟨servers, rfl, hbad⟩
      · rintro (hnone | ⟨servers2, hs2, hbad⟩)
        · cases hnone
        · injection hs2 with hs2
          subst hs2
          exact hbad
  · intro server rest tls mode c e0 h1 h2 h3 h4 h5
    have htc : terminatedCred (UValue.map server) = some c := by
      simp [terminatedCred, h1, h2, h3, h4]
    have hstep := extractLoop_cons_map getSecret gw.ns server rest
    simp only [htc, h5] at hstep
    refine ⟨hstep, ?_, ?_⟩
    · exact containsStr_true c _ "error getting secret ".data
        ((" in namespace " ++ gw.ns ++ ": " ++ e0).data)
        (by simp [stringData_append, List.append_assoc])
    · exact containsStr_true gw.ns _
        (("error getting secret " ++ c ++ " in namespace ").data)
        ((": " ++ e0).data)
        (by simp [stringData_append, List.append_assoc])

/-- Witness for C6 at a concrete gateway whose only server references the
missing credential `missing`: extraction fails with the fetch message
naming the credential and the namespace. -/
theorem c6_extraction_failure_iff_witness :
    clusterDemo.getSecret "shop" "missing" = Except.error "not found" ∧
    (extractLoop clusterDemo.getSecret "shop" [serverMissing] =
      Except.error ("error getting secret " ++ "missing" ++ " in namespace " ++
        "shop" ++ ": " ++ "not found") ∧
      containsStr "missing" ("error getting secret " ++ "missing" ++
        " in namespace " ++ "shop" ++ ": " ++ "not found") = true ∧
      containsStr "shop" ("error getting secret " ++ "missing" ++
        " in namespace " ++ "shop" ++ ": " ++ "not found") = true) :=
  ⟨rfl, (c6_extraction_failure_iff clusterDemo.getSecret gwBadFetch).2
    [("tls", UValue.map [("mode", UValue.str "SIMPLE"),
      ("credentialName", UValue.str "missing")])] []
    [("mode", UValue.str "SIMPLE"), ("credentialName", UValue.str "missing")]
    "SIMPLE" "missing" "not found" rfl rfl (by decide) rfl rfl⟩

/-- C9: for every gateway whose extraction succeeds against a `servers`
slice, the returned list is exactly the in-order `filterMap` of the
servers through their fetched secrets: fetched secrets appear in
server-list order, skipped servers contribute nothing, and two servers
naming the same credential each contribute their own copy (no
deduplication). -/
theorem c9_order_no_dedup (getSecret : String → String → Except String Secret)
    (gw : Gateway) (servers : List UValue) (l : List Secret)
    (hs : nestedSlice gw.obj ["spec", "servers"] = some servers)
    (hok : getGatewaySecrets getSecret gw = Except.ok l) :
    l = servers.filterMap (fetchedSecret getSecret gw.ns) := by
  have hred : getGatewaySecrets getSecret gw =
      extractLoop getSecret gw.ns servers := by
    simp [getGatewaySecrets, hs]
  rw [hred] at hok
  exact extractLoop_ok_filterMap getSecret gw.ns servers l hok

/-- Witness for C9 at a gateway naming `shop-cert` in two servers around
a pass-through server: the secret appears twice, in order. -/
theorem c9_order_no_dedup_witness :
    nestedSlice gwDup.obj ["spec", "servers"] =
      some [serverSimple, serverPass, serverSimple] ∧
    getGatewaySecrets clusterDemo.getSecret gwDup =
      Except.ok [secGood, secGood] ∧
    [secGood, secGood] =
      [serverSimple, serverPass, serverSimple].filterMap
        (fetchedSecret clusterDemo.getSecret "shop") ∧
    List.count secGood [secGood, secGood] = 2 :=
  ⟨rfl, rfl,
    c9_order_no_dedup clusterDemo.getSecret gwDup
      [serverSimple, serverPass, serverSimple] [secGood, secGood] rfl rfl,
    by decide⟩

/-- Any quantum input containing a byte that is neither in the base64
alphabet nor the padding byte `=` (61) fails to decode: the successful
branches consume only alphabet bytes and final padding, and a padded
final group admits nothing after it. -/
theorem decodeGroups_none_of_bad (l : List Nat) (b : Nat) (hb : b ∈ l)
    (hval : b64Val b = none) (hpad : b ≠ 61) : decodeGroups l = none := by
  induction l using decodeGroups.induct with
  | case1 => simp at hb
  | case2 b1 b2 b3 b4 rest v1 v2 h2 h1 v3 h3 v4 h4 tl hrec ih =>
    simp only [List.mem_cons] at hb
    rcases hb with rfl | rfl | rfl | rfl | hbr
    · rw [hval] at h1; cases h1
    · rw [hval] at h2; cases h2
    · rw [hval] at h3; cases h3
    · rw [hval] at h4; cases h4
    · rw [ih hbr] at hrec; cases hrec
  | case3 b1 b2 b3 b4 rest v1 v2 h2 h1 v3 h3 v4 h4 hrec ih =>
    simp [decodeGroups, h1, h2, h3, h4, hrec]
  | case4 b1 b2 b3 b4 rest v1 v2 h2 h1 v3 h3 h4 hcond =>
    obtain ⟨hb4, hrest⟩ := hcond
    subst hb4
    subst hrest
    simp only [List.mem_cons] at hb
    rcases hb with rfl | rfl | rfl | rfl | hbr
    · rw [hval] at h1; cases h1
    · rw [hval] at h2; cases h2
    · rw [hval] at h3; cases h3
    · exact absurd rfl hpad
    · simp at hbr
  | case5 b1 b2 b3 b4 rest v1 v2 h2 h1 v3 h3 h4 hcond =>
    simp [decodeGroups, h1, h2, h3, h4, hcond]
  | case6 b1 b2 b3 b4 rest v1 v2 h2 h1 h3 hcond =>
    obtain ⟨hb3, hb4, hrest⟩ := hcond
    subst hb3
    subst hb4
    subst hrest
    simp only [List.mem_cons] at hb
    rcases hb with rfl | rfl | rfl | rfl | hbr
    · rw [hval] at h1; cases h1
    · rw [hval] at h2; cases h2
    · exact absurd rfl hpad
    · exact absurd rfl hpad
    · simp at hbr
  | case7 b1 b2 b3 b4 rest v1 v2 h2 h1 h3 hcond =>
    simp [decodeGroups, h1, h2, h3, hcond]
  | case8 b1 b2 b3 b4 rest hno =>
    cases hv1 : b64Val b1 with
    | none => simp [decodeGroups, hv1]
    | some v1 =>
      cases hv2 : b64Val b2 with
      | none => simp [decodeGroups, hv1, hv2]
      | some v2 => exact absurd hv2 (fun h => hno v1 v2 hv1 h)
  | case9 t hnil hlong =>
    match t, hnil, hlong with
    | [], hnil, _ => exact absurd rfl hnil
    | [a], _, _ => rfl
    | [a, b2], _, _ => rfl
    | [a, b2, c], _, _ => rfl
    | a :: b2 :: c :: d :: r, _, hlong => exact absurd rfl (hlong a b2 c d r)

/-- C10 counterexample: `secWrapped` holds a conventionally line-wrapped
PEM; after removing the two markers the residual still contains the LF
byte 10, which is outside the base64 alphabet and is not the padding
byte — yet analysis does not return a decode error: the Go decoder
ignores LF and CR, the external capability is invoked, and a result
record is emitted for this secret. -/
theorem c10_counterexample :
    10 ∈ removeAll endMarker (removeAll beginMarker pemWrapped) ∧
    b64Val 10 = none ∧
    (10 : Nat) ≠ 61 ∧
    analyzeCertificate opensslConst secWrapped =
      Except.ok "Jan  1 00:00:00 2030 GMT" ∧
    processSecrets opensslConst "shop" "good" [secWrapped] =
      [Event.record "shop" "good" "wrapped-cert" "Jan  1 00:00:00 2030 GMT"] :=
  ⟨by decide, rfl, by decide, rfl, by decide⟩

/-- C10 (amended): if the residual after marker removal contains a byte
outside the base64 alphabet and padding that is also neither LF (10) nor
CR (13), then for every external capability the analysis returns the
decode error before the capability could contribute anything, and the
walker emits the per-secret diagnostic instead of a result record; LF
and CR themselves are skipped by the decoder, so the interior newlines
of a line-wrapped PEM body do not cause a failure. -/
theorem c10_decode_error_amended (sec : Secret) (certData : List Nat) (b : Nat)
    (hkey : lookupData sec.data "tls.crt" = some certData)
    (hb : b ∈ removeAll endMarker (removeAll beginMarker certData))
    (hval : b64Val b = none) (hpad : b ≠ 61) (h10 : b ≠ 10) (h13 : b ≠ 13) :
    ∀ (openssl : List Nat → Except String String) (ns gwName : String)
      (rest : List Secret),
      analyzeCertificate openssl sec =
        Except.error "error decoding certificate data" ∧
      processSecrets openssl ns gwName (sec :: rest) =
        Event.secretError ns gwName "error decoding certificate data" ::
          processSecrets openssl ns gwName rest := by
  have hmem : b ∈ (removeAll endMarker (removeAll beginMarker certData)).filter
      (fun x => x != 10 && x != 13) := by
    rw [List.mem_filter]
    refine ⟨hb, ?_⟩
    simp [h10, h13]
  have hdec : base64Decode (removeAll endMarker (removeAll beginMarker certData)) =
      none :=
    decodeGroups_none_of_bad _ b hmem hval hpad
  intro openssl ns gwName rest
  have ha : analyzeCertificate openssl sec =
      Except.error "error decoding certificate data" := by
    simp [analyzeCertificate, hkey, hdec]
  exact ⟨ha, by simp [processSecrets, ha]⟩

/-- Witness for C10 (amended) at a concrete secret whose payload holds
the byte `!` (33): the decode error is emitted for every capability. -/
theorem c10_decode_error_amended_witness :
    lookupData secBadB64.data "tls.crt" = some (asciiBytes "TUlJ!kZB") ∧
    33 ∈ removeAll endMarker (removeAll beginMarker (asciiBytes "TUlJ!kZB")) ∧
    b64Val 33 = none ∧
    analyzeCertificate opensslConst secBadB64 =
      Except.error "error decoding certificate data" ∧
    processSecrets opensslConst "shop" "good" [secBadB64] =
      [Event.secretError "shop" "good" "error decoding certificate data"] :=
  ⟨rfl, by decide, rfl,
    (c10_decode_error_amended secBadB64 (asciiBytes "TUlJ!kZB") 33 rfl
      (by decide) rfl (by decide) (by decide) (by decide)
      opensslConst "shop" "good" []).1,
    (c10_decode_error_amended secBadB64 (asciiBytes "TUlJ!kZB") 33 rfl
      (by decide) rfl (by decide) (by decide) (by decide)
      opensslConst "shop" "good" []).2⟩

/-- A result record in the secret loop's output fixes its namespace and
gateway fields and names a secret of the processed list whose analysis
succeeded with the recorded expiry. -/
theorem record_mem_processSecrets (openssl : List Nat → Except String String)
    (ns gwName : String) (l : List Secret) (ns2 g2 sn exp : String)
    (h : Event.record ns2 g2 sn exp ∈ processSecrets openssl ns gwName l) :
    ns2 = ns ∧ g2 = gwName ∧
    ∃ sec ∈ l, sec.name = sn ∧
      analyzeCertificate openssl sec = Except.ok exp := by
  induction l with
  | nil => simp [processSecrets] at h
  | cons sec rest ih =>
    rw [processSecrets] at h
    cases ha : analyzeCertificate openssl sec with
    | error e =>
      simp only [ha, List.mem_cons] at h
      rcases h with h | h
      · exact Event.noConfusion h
      · obtain ⟨h1, h2, sec2, hmem, h3⟩ := ih h
        exact ⟨h1, h2, sec2, List.mem_cons_of_mem sec hmem, h3⟩
    | ok exp0 =>
      simp only [ha, List.mem_cons] at h
      rcases h with h | h
      · injection h with e1 e2 e3 e4
        subst e1
        subst e2
        subst e4
        exact ⟨rfl, rfl, sec, List.mem_cons_self sec rest, e3.symm, ha⟩
      · obtain ⟨h1, h2, sec2, hmem, h3⟩ := ih h
        exact ⟨h1, h2, sec2, List.mem_cons_of_mem sec hmem, h3⟩

/-- A result record in the gateway loop's output fixes its namespace and
comes from some gateway of the processed list whose extraction succeeded
and whose secret list contains the recorded secret. -/
theorem record_mem_processGateways (cl : Cluster) (ns : String)
    (gws : List Gateway) (ns2 g2 sn exp : String)
    (h : Event.record ns2 g2 sn exp ∈ processGateways cl ns gws) :
    ns2 = ns ∧ ∃ gw ∈ gws, gw.name = g2 ∧
      ∃ secrets, getGatewaySecrets cl.getSecret gw = Except.ok secrets ∧
        ∃ sec ∈ secrets, sec.name = sn ∧
          analyzeCertificate cl.openssl sec = Except.ok exp := by
  induction gws with
  | nil => simp [processGateways] at h
  | cons gw rest ih =>
    rw [processGateways] at h
    rw [List.mem_append] at h
    rcases h with h | h
    · rw [processGateway] at h
      cases hg : getGatewaySecrets cl.getSecret gw with
      | error e =>
        simp only [hg, List.mem_singleton] at h
        exact Event.noConfusion h
      | ok secrets =>
        simp only [hg] at h
        obtain ⟨h1, h2, sec, hmem, h3, h4⟩ :=
          record_mem_processSecrets cl.openssl ns gw.name secrets ns2 g2 sn exp h
        exact ⟨h1, gw, List.mem_cons_self gw rest, h2.symm,
          secrets, hg, sec, hmem, h3, h4⟩
    · obtain ⟨h1, gw2, hmem, hrest⟩ := ih h
      exact ⟨h1, gw2, List.mem_cons_of_mem gw hmem, hrest⟩

/-- A result record in the namespace walk's output reports a namespace of
the walked list whose gateway listing succeeded, and lies in that
namespace's gateway-loop output. -/
theorem record_mem_getNsGateways (cl : Cluster) (nsList : List String)
    (ns g sn exp : String)
    (h : Event.record ns g sn exp ∈ (getNsGateways cl nsList).1) :
    ns ∈ nsList ∧ ∃ gws, cl.gateways ns = Except.ok gws ∧
      Event.record ns g sn exp ∈ processGateways cl ns gws := by
  induction nsList with
  | nil => simp [getNsGateways] at h
  | cons ns0 rest ih =>
    rw [getNsGateways] at h
    cases hg : cl.gateways ns0 with
    | error e =>
      simp only [hg] at h
      simp at h
    | ok gws =>
      simp only [hg] at h
      rcases hrec : getNsGateways cl rest with ⟨evs, err⟩
      rw [hrec] at h
      simp only [List.mem_append] at h
      rcases h with h | h
      · have hns : ns = ns0 :=
          (record_mem_processGateways cl ns0 gws ns g sn exp h).1
        subst hns
        exact ⟨List.mem_cons_self ns rest, gws, hg, h⟩
      · have h2 : Event.record ns g sn exp ∈ (getNsGateways cl rest).1 := by
          rw [hrec]
          exact h
        obtain ⟨h1, gws2, hg2, hmem⟩ := ih h2
        exact ⟨List.mem_cons_of_mem ns0 h1, gws2, hg2, hmem⟩

/-- C5: every emitted result record's (namespace, gateway) pair names a
gateway actually returned by the gateway listing of that namespace at
scan time, and the recorded secret was fetched through a server that
reached the fetch step — one with a `tls` map, a readable mode different
from `"PASSTHROUGH"`, and a named credential — so no record ever stems
from a pass-through or credential-less server. -/
theorem c5_record_provenance (cl : Cluster) (nsList : List String)
    (ns g sn exp : String)
    (h : Event.record ns g sn exp ∈ (getNsGateways cl nsList).1) :
    ns ∈ nsList ∧
    ∃ gws, cl.gateways ns = Except.ok gws ∧
    ∃ gw ∈ gws, gw.name = g ∧
    ∃ servers, nestedSlice gw.obj ["spec", "servers"] = some servers ∧
    ∃ s ∈ servers, ∃ c, terminatedCred s = some c ∧
    ∃ sec, cl.getSecret gw.ns c = Except.ok sec ∧ sec.name = sn ∧
      analyzeCertificate cl.openssl sec = Except.ok exp := by
  obtain ⟨hns, gws, hg, hmem⟩ :=
    record_mem_getNsGateways cl nsList ns g sn exp h
  obtain ⟨_, gw, hgwmem, hname, secrets, hok, sec, hsecmem, hsn, hexp⟩ :=
    record_mem_processGateways cl ns gws ns g sn exp hmem
  have hservers : ∃ servers, nestedSlice gw.obj ["spec", "servers"] =
      some servers := by
    cases hs : nestedSlice gw.obj ["spec", "servers"] with
    | none => rw [getGatewaySecrets, hs] at hok; cases hok
    | some servers => exact ⟨servers, rfl⟩
  obtain ⟨servers, hs⟩ := hservers
  have hred : getGatewaySecrets cl.getSecret gw =
      extractLoop cl.getSecret gw.ns servers := by
    simp [getGatewaySecrets, hs]
  rw [hred] at hok
  have hchar := extractLoop_ok_filterMap cl.getSecret gw.ns servers secrets hok
  rw [hchar] at hsecmem
  rw [List.mem_filterMap] at hsecmem
  obtain ⟨s, hsmem, hfs⟩ := hsecmem
  have hcred : ∃ c, terminatedCred s = some c ∧
      cl.getSecret gw.ns c = Except.ok sec := by
    rw [fetchedSecret] at hfs
    cases htc : terminatedCred s with
    | none => simp only [htc] at hfs; cases hfs
    | some c =>
      simp only [htc] at hfs
      cases hgs : cl.getSecret gw.ns c with
      | error e => simp only [hgs] at hfs; cases hfs
      | ok sec2 =>
        simp only [hgs] at hfs
        injection hfs with hfs
        subst hfs
        exact ⟨c, rfl, hgs⟩
  obtain ⟨c, htc, hgs⟩ := hcred
  exact ⟨hns, gws, hg, gw, hgwmem, hname, servers, hs,
    s, hsmem, c, htc, sec, hgs, hsn, hexp⟩

/-- Witness for C5 at the demo cluster: the single emitted record traces
back to gateway `good` listed in `shop` and to its terminating server. -/
theorem c5_record_provenance_witness :
    Event.record "shop" "good" "shop-cert" "Jan  1 00:00:00 2030 GMT" ∈
      (getNsGateways clusterDemo ["shop"]).1 ∧
    ("shop" ∈ ["shop"] ∧
      ∃ gws, clusterDemo.gateways "shop" = Except.ok gws ∧
      ∃ gw ∈ gws, gw.name = "good" ∧
      ∃ servers, nestedSlice gw.obj ["spec", "servers"] = some servers ∧
      ∃ s ∈ servers, ∃ c, terminatedCred s = some c ∧
      ∃ sec, clusterDemo.getSecret gw.ns c = Except.ok sec ∧
        sec.name = "shop-cert" ∧
        analyzeCertificate clusterDemo.openssl sec =
          Except.ok "Jan  1 00:00:00 2030 GMT") :=
  ⟨by decide,
    c5_record_provenance clusterDemo ["shop"] "shop" "good" "shop-cert"
      "Jan  1 00:00:00 2030 GMT" (by decide)⟩
